import Mathlib

set_option linter.unusedVariables false

/-!
Verification development for the mininet virtual link and interface layer.
The definitions below are shallow embeddings of the Python sources in
mininet/link.py, mininet/util.py, mininet/openbsd/intf.py and
mininet/openbsd/util.py.  External command execution is modelled by a
runner function mapping a command to its captured text output; commands
are represented either as argument lists or as structured command values
whose fields mirror the format arguments of the source strings.
-/

/-- Python membership test of a character in a string (c in s). -/
def pyContains (c : Char) (s : String) : Bool :=
  decide (c ∈ s.data)

/-- Python str.split on a single separator character, on the char list. -/
def pySplitL (sep : Char) : List Char → List String
  | [] => [""]
  | ch :: rest =>
    match pySplitL sep rest with
    | [] => [""]
    | a :: as =>
      if ch = sep then "" :: a :: as
      else (String.singleton ch ++ a) :: as

/-- Python str.split on a single separator character. -/
def pySplit (sep : Char) (s : String) : List String :=
  pySplitL sep s.data

/-- The split result is never empty. -/
theorem pySplitL_ne_nil (sep : Char) (l : List Char) : pySplitL sep l ≠ [] := by
  induction l with
  | nil => simp [pySplitL]
  | cons ch rest ih =>
    simp only [pySplitL]
    rcases h : pySplitL sep rest with _ | ⟨a, as⟩
    · simp
    · by_cases hc : ch = sep <;> simp [hc]

/-- The split has at least two parts exactly when the separator occurs. -/
theorem pySplitL_two_le (sep : Char) (l : List Char) :
    2 ≤ (pySplitL sep l).length ↔ sep ∈ l := by
  induction l with
  | nil => simp [pySplitL]
  | cons ch rest ih =>
    rcases h : pySplitL sep rest with _ | ⟨a, as⟩
    · exact absurd h (pySplitL_ne_nil sep rest)
    · rw [h] at ih
      by_cases hc : ch = sep
      · subst hc
        simp only [pySplitL, h, if_pos rfl]
        simp [List.mem_cons]
      · simp only [pySplitL, h, if_neg hc, List.length_cons, List.mem_cons]
        constructor
        · intro hl
          exact Or.inr (ih.mp (by simpa using hl))
        · rintro (he | hm)
          · exact absurd he.symm hc
          · simpa using ih.mpr hm

/-- Prefix test on char lists (helper for the substring test). -/
def listIsPre : List Char → List Char → Bool
  | [], _ => true
  | _ :: _, [] => false
  | n :: ns, h :: hs => if n = h then listIsPre ns hs else false

/-- Substring occurrence test on char lists. -/
def listHasInfix (needle : List Char) : List Char → Bool
  | [] => listIsPre needle []
  | h :: hs => if listIsPre needle (h :: hs) then true else listHasInfix needle hs

/-- Python substring test (needle in hay). -/
def strContains (hay needle : String) : Bool :=
  listHasInfix needle.data hay.data

/-- Python truthiness of an optional numeric value: None and 0 are falsy. -/
def truthyQ : Option ℚ → Bool
  | none => false
  | some x => decide (x ≠ 0)

/-- Python truthiness of an optional string: None and the empty string are falsy. -/
def truthyS : Option String → Bool
  | none => false
  | some s => decide (s ≠ "")

/-- State of a base interface object (link.py, class Intf): logical name,
stored IP address, stored prefix length, stored MAC address. -/
structure IntfState where
  name : String
  ip : Option String
  prefLen : Option String
  mac : Option String
deriving DecidableEq

namespace Intf

/-- Embedding of Intf.setIP (link.py).  The runner maps an issued command
(argument list) to its output.  Mirrors the source: a combined addr/prefix
string is split on the slash and the two parts are stored (a split that
does not produce exactly two parts makes the Python tuple unpacking raise a
ValueError); otherwise an explicit prefix length is required and its
absence raises.  The slash form issues ifconfig with the address and an up
argument; the explicit-prefix form issues ifconfig with only the joined
address. -/
def setIP (run : List String → String) (s : IntfState) (ipstr : String)
    (pLen : Option Nat) : Except String (IntfState × List (List String) × String) :=
  if pyContains '/' ipstr then
    match pySplit '/' ipstr with
    | [a, p] =>
      let c := ["ifconfig", s.name, ipstr, "up"]
      Except.ok ({ s with ip := some a, prefLen := some p }, [c], run c)
    | _ => Except.error "ValueError: unpacking split result"
  else
    match pLen with
    | none => Except.error ("No prefix length set for IP address " ++ ipstr)
    | some p =>
      let c := ["ifconfig", s.name, ipstr ++ "/" ++ toString p]
      Except.ok ({ s with ip := some ipstr, prefLen := some (toString p) }, [c], run c)

/-- Embedding of Intf.setMAC (link.py): bring the device down, set the
hardware address and bring it back up; two commands, concatenated output. -/
def setMAC (run : List String → String) (s : IntfState) (macstr : String) :
    IntfState × List (List String) × String :=
  let c1 := ["ifconfig", s.name, "down"]
  let c2 := ["ifconfig", s.name, "ether", macstr, "up"]
  ({ s with mac := some macstr }, [c1, c2], run c1 ++ run c2)

/-- Embedding of Intf.isUp (link.py): with setUp, issue the up command and
report success on empty output; otherwise query and look for the UP marker. -/
def isUp (run : List String → String) (s : IntfState) (setUp : Bool) :
    List (List String) × Bool :=
  if setUp then
    let c := ["ifconfig", s.name, "up"]
    ([c], decide (run c = ""))
  else
    let c := ["ifconfig", s.name]
    ([c], strContains (run c) "UP")

/-- Output of the base Intf.config: final state, result mapping from option
name to (stringified) command result, and the list of issued commands. -/
structure BaseOut where
  state : IntfState
  results : List (String × String)
  cmds : List (List String)
deriving DecidableEq

/-- Embedding of Intf.config (link.py): applies setMAC, setIP, isUp and the
raw ifconfig passthrough in that order via setParam, skipping options whose
value is None, and collecting a result mapping.  An exception from setIP
propagates. -/
def config (run : List String → String) (s : IntfState)
    (mac ip : Option String) (up : Option Bool) (ifcfg : Option String) :
    Except String BaseOut :=
  let r : List (String × String) := []
  let cmds : List (List String) := []
  let (s, r, cmds) :=
    match mac with
    | none => (s, r, cmds)
    | some m =>
      let (s1, cs, o) := setMAC run s m
      (s1, r ++ [("mac", o)], cmds ++ cs)
  match (match ip with
         | none => Except.ok (s, r, cmds)
         | some ipstr =>
           match setIP run s ipstr none with
           | Except.error e => Except.error e
           | Except.ok (s1, cs, o) => Except.ok (s1, r ++ [("ip", o)], cmds ++ cs)) with
  | Except.error e => Except.error e
  | Except.ok (s, r, cmds) =>
    let (r, cmds) :=
      match up with
      | none => (r, cmds)
      | some u =>
        let (cs, b) := isUp run s u
        (r ++ [("up", if b then "True" else "False")], cmds ++ cs)
    let (r, cmds) :=
      match ifcfg with
      | none => (r, cmds)
      | some args =>
        let c := ["ifconfig", s.name, args]
        (r ++ [("ifconfig", run c)], cmds ++ [c])
    Except.ok ⟨s, r, cmds⟩

end Intf

/-- A string that contains a slash character differs from the string up. -/
theorem slash_ne_up (a b : String) : a ++ "/" ++ b ≠ "up" := by
  intro h
  have h1 : ('/' : Char) ∈ (a ++ "/" ++ b).data := by
    rw [String.data_append, String.data_append]
    refine List.mem_append.mpr (Or.inl (List.mem_append.mpr (Or.inr ?_)))
    decide
  rw [h] at h1
  exact absurd h1 (by decide)

/-- Claim C2, corrected form.  Intf.setIP raises exactly when either no
slash is present and no explicit prefix length is given, or a slash is
present but splitting on the slash does not yield exactly two parts; in
every non-raising case it stores the address and prefix length and issues
exactly one device-configuration command, and that command carries the up
argument precisely when the combined slash form was used.  The name of the
interface is assumed not to be the literal string up. -/
theorem C2_amended (run : List String → String) (s : IntfState) (ipstr : String)
    (pLen : Option Nat) (hn : s.name ≠ "up") :
    ((∃ e, Intf.setIP run s ipstr pLen = Except.error e) ↔
      ((pyContains '/' ipstr = false ∧ pLen = none) ∨
       (pyContains '/' ipstr = true ∧ (pySplit '/' ipstr).length ≠ 2))) ∧
    (∀ s1 cmds o, Intf.setIP run s ipstr pLen = Except.ok (s1, cmds, o) →
      cmds.length = 1 ∧ s1.ip ≠ none ∧ s1.prefLen ≠ none ∧
      (∀ c ∈ cmds, (("up" ∈ c) ↔ pyContains '/' ipstr = true))) := by
  unfold Intf.setIP
  by_cases hc : pyContains '/' ipstr
  · have hlen : 2 ≤ (pySplit '/' ipstr).length := by
      rw [pySplit, pySplitL_two_le]
      simpa [pyContains] using hc
    rw [if_pos hc]
    rcases hsp : pySplit '/' ipstr with _ | ⟨a, _ | ⟨p, _ | ⟨q, rest⟩⟩⟩
    · rw [hsp] at hlen
      simp at hlen
    · rw [hsp] at hlen
      simp at hlen
    · constructor
      · constructor
        · rintro ⟨e, he⟩
          simp at he
        · rintro (⟨h1, _⟩ | ⟨_, h2⟩)
          · exact absurd h1 (by simp [hc])
          · simp at h2
      · rintro s1 cmds o h
        simp only [Except.ok.injEq, Prod.mk.injEq] at h
        obtain ⟨h1, h2, h3⟩ := h
        subst h1
        subst h2
        refine ⟨rfl, by simp, by simp, ?_⟩
        intro c hcl
        simp only [List.mem_singleton] at hcl
        subst hcl
        simp [hc]
    · constructor
      · constructor
        · intro _
          exact Or.inr ⟨hc, by simp⟩
        · intro _
          exact ⟨_, rfl⟩
      · rintro s1 cmds o h
        simp at h
  · have hcf : pyContains '/' ipstr = false := by
      simpa using hc
    rw [if_neg hc]
    cases pLen with
    | none =>
      constructor
      · constructor
        · intro _
          exact Or.inl ⟨hcf, rfl⟩
        · intro _
          exact ⟨_, rfl⟩
      · rintro s1 cmds o h
        simp at h
    | some p =>
      constructor
      · constructor
        · rintro ⟨e, he⟩
          simp at he
        · rintro (⟨_, h1⟩ | ⟨h2, _⟩)
          · simp at h1
          · exact absurd h2 (by simp [hcf])
      · rintro s1 cmds o h
        simp only [Except.ok.injEq, Prod.mk.injEq] at h
        obtain ⟨h1, h2, h3⟩ := h
        subst h1
        subst h2
        refine ⟨rfl, by simp, by simp, ?_⟩
        intro c hcl
        simp only [List.mem_singleton] at hcl
        subst hcl
        constructor
        · intro hmem
          simp only [List.mem_cons, List.not_mem_nil, or_false] at hmem
          rcases hmem with h | h | h
          · exact absurd h (by decide)
          · exact absurd h.symm hn
          · exact absurd h.symm (slash_ne_up ipstr (toString p))
        · intro hf
          exact absurd hf (by simp [hcf])

/-- Witness for C2_amended at a concrete input: a slashless address with an
explicit prefix.  The call does not raise and its single command does not
carry the up argument. -/
theorem C2_witness :
    ((∃ e, Intf.setIP (fun _ => "") ⟨"h1-eth0", none, none, none⟩ "10.0.0.1"
        (some 24) = Except.error e) ↔
      ((pyContains '/' "10.0.0.1" = false ∧ (some 24 : Option Nat) = none) ∨
       (pyContains '/' "10.0.0.1" = true ∧ (pySplit '/' "10.0.0.1").length ≠ 2))) ∧
    (∀ s1 cmds o, Intf.setIP (fun _ => "") ⟨"h1-eth0", none, none, none⟩
        "10.0.0.1" (some 24) = Except.ok (s1, cmds, o) →
      cmds.length = 1 ∧ s1.ip ≠ none ∧ s1.prefLen ≠ none ∧
      (∀ c ∈ cmds, (("up" ∈ c) ↔ pyContains '/' "10.0.0.1" = true))) :=
  C2_amended (fun _ => "") ⟨"h1-eth0", none, none, none⟩ "10.0.0.1" (some 24)
    (by decide)

/-- Counterexample to claim C2 as stated: the call with a slashless address
and explicit prefix length does not raise, yet the single command it issues
does not bring the interface up (no up argument is present), contradicting
the asserted behavior that every non-raising call issues a command that
also brings the interface up. -/
theorem C2_counterexample :
    Intf.setIP (fun _ => "") ⟨"h1-eth0", none, none, none⟩ "10.0.0.1" (some 24)
      = Except.ok (⟨"h1-eth0", some "10.0.0.1", some "24", none⟩,
                   [["ifconfig", "h1-eth0", "10.0.0.1/24"]], "") ∧
    "up" ∉ ["ifconfig", "h1-eth0", "10.0.0.1/24"] := by
  constructor
  · rfl
  · decide

/-- World state around a deletion: the interface's node back-reference (by
node name), its link back-reference, the owning node's jail id, and the
owning node's interface name table. -/
structure DelWorld where
  node : Option String
  link : Option String
  jid : Option String
  nodeIntfs : List String
deriving DecidableEq

/-- Modelled from the spec: Node.delIntf lives in basenode.py, which is not
under src/.  Per the spec, interface deletion detaches the interface from
its owning node interface table; the table is modelled as the list of
interface names registered on the node, and delIntf removes the given name. -/
def Node.delIntf (tbl : List String) (intfName : String) : List String :=
  tbl.filter (fun x => decide (x ≠ intfName))

/-- Embedding of Intf.delete (link.py): issue the destroy command (with the
vnet qualifier when the owning node has a truthy jail id), detach from the
node table via delIntf, and null the link back-reference.  The node
back-reference is not assigned by the source. -/
def Intf.delete (run : List String → String) (name : String) (w : DelWorld) :
    DelWorld × List (List String) :=
  let jopt := if truthyS w.jid then "-vnet " ++ w.jid.getD "" else ""
  let c := ["ifconfig", name, jopt, "destroy"]
  let o := run c
  ({ w with nodeIntfs := Node.delIntf w.nodeIntfs name, link := none }, [c])

namespace OIntf

/-- State of a pair(4)-backed interface (openbsd/intf.py): logical name and
the retained real device name (orgName). -/
structure St where
  name : String
  realname : Option String
deriving DecidableEq

/-- Name targeted by the openbsd Intf.ifconfig: the real name when one is
set (truthy), else the logical name. -/
def ifconfigName (s : St) : String :=
  if truthyS s.realname then s.realname.getD "" else s.name

/-- Embedding of the openbsd Intf.ifconfig command construction: pexec of
ifconfig against the targeted name with the given arguments. -/
def ifconfig (s : St) (args : List String) : List String :=
  "ifconfig" :: ifconfigName s :: args

/-- Embedding of the openbsd Intf.rename: drop the old logical name from
the node portNames table, map the new name to the real name, update the
logical name, and issue a description command (against the targeted name). -/
def rename (s : St) (portNames : List (String × Option String)) (newname : String) :
    St × List (String × Option String) × List (List String) :=
  let pt := if portNames.any (fun p => decide (p.1 = s.name))
            then portNames.filter (fun p => decide (p.1 ≠ s.name)) else portNames
  let pt2 := pt.filter (fun p => decide (p.1 ≠ newname)) ++ [(newname, s.realname)]
  let s2 : St := { s with name := newname }
  (s2, pt2, [ifconfig s2 ["description", "\"" ++ newname ++ "\""]])

/-- Embedding of the openbsd Intf.delete: issue destroy against the
targeted (real) name, drop the portNames entry, detach from the node table,
null the link back-reference; the node back-reference is not assigned. -/
def delete (s : St) (portNames : List (String × Option String)) (w : DelWorld) :
    DelWorld × List (String × Option String) × List (List String) :=
  let c := ifconfig s ["destroy"]
  let pt := if portNames.any (fun p => decide (p.1 = s.name))
            then portNames.filter (fun p => decide (p.1 ≠ s.name)) else portNames
  ({ w with nodeIntfs := Node.delIntf w.nodeIntfs s.name, link := none }, pt, [c])

end OIntf

/-- Counterexample to claim C3 as stated: after delete, the node
back-reference is still set (the source nulls only the link reference), so
it is not the case that both references become null. -/
theorem C3_counterexample :
    (Intf.delete (fun _ => "") "h1-eth0"
        ⟨some "h1", some "l0", none, ["lo0", "h1-eth0"]⟩).1
      = ⟨some "h1", none, none, ["lo0"]⟩ ∧
    (Intf.delete (fun _ => "") "h1-eth0"
        ⟨some "h1", some "l0", none, ["lo0", "h1-eth0"]⟩).1.node ≠ none := by
  constructor
  · rfl
  · decide

/-- Claim C3, corrected form: after a single delete (both in the base
link.py variant and the openbsd variant), the link back-reference is null
and the interface name is removed from the owning node interface table,
while the node back-reference is left unchanged (it is not nulled). -/
theorem C3_amended (run : List String → String) (name : String) (w : DelWorld)
    (s : OIntf.St) (pt : List (String × Option String)) :
    ((Intf.delete run name w).1.link = none ∧
     name ∉ (Intf.delete run name w).1.nodeIntfs ∧
     (Intf.delete run name w).1.node = w.node) ∧
    ((OIntf.delete s pt w).1.link = none ∧
     s.name ∉ (OIntf.delete s pt w).1.nodeIntfs ∧
     (OIntf.delete s pt w).1.node = w.node) := by
  refine ⟨⟨rfl, ?_, rfl⟩, ⟨rfl, ?_, rfl⟩⟩
  · simp [Intf.delete, Node.delIntf, List.mem_filter]
  · simp [OIntf.delete, Node.delIntf, List.mem_filter]

/-- Embedding of the retry loop of retry (util.py): attempt k is the result
of the k-th call of fn; each loop iteration calls fn once and increments
tries after a failed call while tries is below retries; the returned value
is the final value of tries. -/
def retryFrom (attempt : Nat → Bool) (retries tries : Nat) : Nat :=
  if attempt tries then tries
  else if h : tries < retries then retryFrom attempt retries (tries + 1)
  else tries
termination_by retries - tries
decreasing_by omega

/-- Embedding of retry (util.py): returns the number of calls made to fn
and whether the fatal exit path (exit 1, taken when tries reached retries)
was triggered. -/
def retry (attempt : Nat → Bool) (retries : Nat) : Nat × Bool :=
  let t := retryFrom attempt retries 0
  (t + 1, decide (retries ≤ t))

/-- Embedding of moveIntfNoRetry (openbsd/util.py): the move succeeds
exactly when the move command produced no output. -/
def moveIntfNoRetry (cmdOutput : String) : Bool :=
  decide (cmdOutput = "")

/-- Embedding of moveIntf (util.py and openbsd/util.py): retry the move,
where outputs k is the move command output observed on the k-th call. -/
def moveIntf (outputs : Nat → String) (retries : Nat) : Nat × Bool :=
  retry (fun k => moveIntfNoRetry (outputs k)) retries

/-- Claim C4: when the move command returns non-empty output on every
attempt and retries is 3, the move function is called exactly 4 times
(1 initial attempt plus 3 retries) and the fatal exit path is taken. -/
theorem C4_move_retries (outputs : Nat → String) (h : ∀ k, outputs k ≠ "") :
    moveIntf outputs 3 = (4, true) := by
  have key : ∀ (f : Nat → Bool), (∀ k, f k = false) → retryFrom f 3 0 = 3 := by
    intro f hf
    have e3 : retryFrom f 3 3 = 3 := by
      unfold retryFrom
      rw [hf 3]
      simp
    have e2 : retryFrom f 3 2 = 3 := by
      unfold retryFrom
      rw [hf 2]
      simp [e3]
    have e1 : retryFrom f 3 1 = 3 := by
      unfold retryFrom
      rw [hf 1]
      simp [e2]
    unfold retryFrom
    rw [hf 0]
    simp [e1]
  have hf : ∀ k, (fun k => moveIntfNoRetry (outputs k)) k = false := by
    intro k
    simp [moveIntfNoRetry, h k]
  unfold moveIntf retry
  simp [key _ hf]

/-- Witness for C4 at a concrete always-failing output sequence. -/
theorem C4_witness : moveIntf (fun _ => "ifconfig: SIOCSIFRDOMAIN") 3 = (4, true) := by
  refine C4_move_retries _ ?_
  intro k
  show ("ifconfig: SIOCSIFRDOMAIN" : String) ≠ ""
  decide

/-- Kind of a node at a link endpoint; OVS switches are the forwarding
elements of the patch-link construction. -/
inductive NodeKind where
  | ovsSwitch
  | host
deriving DecidableEq

namespace OVSIntf

/-- Embedding of OVSIntf.ifconfig (link.py): joining the arguments with
spaces, the up request is a no-op returning None; anything else raises.
No command is ever issued to the node; the second component is the
(always empty) list of issued commands. -/
def ifconfig (args : List String) : Except String (Option String) × List (List String) :=
  let cmd := String.intercalate " " args
  if cmd = "up" then (Except.ok none, [])
  else (Except.error ("OVSIntf cannot do ifconfig " ++ cmd), [])

end OVSIntf

namespace OVSLink

/-- Embedding of the OVSLink constructor patch-link test: the link is a
patch link when both endpoint nodes are OVS switches. -/
def isPatchLink (k1 k2 : NodeKind) : Bool :=
  decide (k1 = NodeKind.ovsSwitch ∧ k2 = NodeKind.ovsSwitch)

/-- Embedding of OVSLink.makeIntfPair: for a patch link no device pair is
made (None, None); otherwise it delegates to the base pairing, modelled by
the fallback argument. -/
def makeIntfPair (isPatch : Bool) (fallback : Option String × Option String) :
    Option String × Option String :=
  if isPatch then (none, none) else fallback

end OVSLink

/-- Claim C5: for a patch link between two forwarding elements, device
pairing is skipped (no devices are returned), and endpoint configuration
never issues a command: the up request succeeds as a no-op and every
other request (including address configuration and destroy) raises. -/
theorem C5_patch_link (k1 k2 : NodeKind) (fallback : Option String × Option String)
    (h1 : k1 = NodeKind.ovsSwitch) (h2 : k2 = NodeKind.ovsSwitch) :
    OVSLink.isPatchLink k1 k2 = true ∧
    OVSLink.makeIntfPair (OVSLink.isPatchLink k1 k2) fallback = (none, none) ∧
    (∀ args : List String, (OVSIntf.ifconfig args).2 = [] ∧
      ((∃ r, (OVSIntf.ifconfig args).1 = Except.ok r) ↔
        String.intercalate " " args = "up")) := by
  subst h1
  subst h2
  refine ⟨rfl, rfl, ?_⟩
  intro args
  unfold OVSIntf.ifconfig
  by_cases hx : String.intercalate " " args = "up"
  · rw [if_pos hx]
    exact ⟨rfl, ⟨fun _ => hx, fun _ => ⟨none, rfl⟩⟩⟩
  · rw [if_neg hx]
    refine ⟨rfl, ⟨?_, fun hf => absurd hf hx⟩⟩
    rintro ⟨r, hr⟩
    simp at hr

/-- Witness for C5 at two concrete OVS switch endpoints. -/
theorem C5_witness :
    OVSLink.isPatchLink NodeKind.ovsSwitch NodeKind.ovsSwitch = true ∧
    OVSLink.makeIntfPair (OVSLink.isPatchLink NodeKind.ovsSwitch NodeKind.ovsSwitch)
      (some "s1-eth1", some "s2-eth1") = (none, none) ∧
    (∀ args : List String, (OVSIntf.ifconfig args).2 = [] ∧
      ((∃ r, (OVSIntf.ifconfig args).1 = Except.ok r) ↔
        String.intercalate " " args = "up")) :=
  C5_patch_link NodeKind.ovsSwitch NodeKind.ovsSwitch (some "s1-eth1", some "s2-eth1")
    rfl rfl

/-- Claim C6: renaming on the pair-style backend updates the logical name
only; the real device identifier is unchanged, the rename command and any
subsequent configuration or delete command target the real identifier and
never the (distinct) logical name. -/
theorem C6_rename_keeps_real (s : OIntf.St) (pt pt2 : List (String × Option String))
    (w : DelWorld) (newname r : String)
    (h1 : s.realname = some r) (h2 : r ≠ "") (h3 : r ≠ newname) :
    ((OIntf.rename s pt newname).1.name = newname) ∧
    ((OIntf.rename s pt newname).1.realname = some r) ∧
    ((OIntf.rename s pt newname).2.2
       = [["ifconfig", r, "description", "\"" ++ newname ++ "\""]]) ∧
    (∀ args, OIntf.ifconfig (OIntf.rename s pt newname).1 args
       = "ifconfig" :: r :: args) ∧
    (OIntf.ifconfigName (OIntf.rename s pt newname).1 ≠ newname) ∧
    ((OIntf.delete (OIntf.rename s pt newname).1 pt2 w).2.2
       = [["ifconfig", r, "destroy"]]) := by
  have hs2 : (OIntf.rename s pt newname).1 = ⟨newname, some r⟩ := by
    simp [OIntf.rename, h1]
  have hname : OIntf.ifconfigName ⟨newname, some r⟩ = r := by
    simp [OIntf.ifconfigName, truthyS, h2]
  have hcmds : (OIntf.rename s pt newname).2.2
      = [OIntf.ifconfig ⟨newname, some r⟩ ["description", "\"" ++ newname ++ "\""]] := by
    simp [OIntf.rename, OIntf.ifconfig, h1]
  refine ⟨by rw [hs2], by rw [hs2], ?_, ?_, ?_, ?_⟩
  · rw [hcmds]
    simp [OIntf.ifconfig, hname]
  · intro args
    rw [hs2]
    simp [OIntf.ifconfig, hname]
  · rw [hs2, hname]
    exact h3
  · rw [hs2]
    simp [OIntf.delete, OIntf.ifconfig, hname]

/-- Witness for C6 at a concrete renamed pair interface. -/
theorem C6_witness :
    ((OIntf.rename ⟨"h1-eth0", some "pair0"⟩ [] "s1-eth1").1.name = "s1-eth1") ∧
    ((OIntf.rename ⟨"h1-eth0", some "pair0"⟩ [] "s1-eth1").1.realname = some "pair0") ∧
    ((OIntf.rename ⟨"h1-eth0", some "pair0"⟩ [] "s1-eth1").2.2
       = [["ifconfig", "pair0", "description", "\"" ++ "s1-eth1" ++ "\""]]) ∧
    (∀ args, OIntf.ifconfig (OIntf.rename ⟨"h1-eth0", some "pair0"⟩ [] "s1-eth1").1 args
       = "ifconfig" :: "pair0" :: args) ∧
    (OIntf.ifconfigName (OIntf.rename ⟨"h1-eth0", some "pair0"⟩ [] "s1-eth1").1 ≠ "s1-eth1") ∧
    ((OIntf.delete (OIntf.rename ⟨"h1-eth0", some "pair0"⟩ [] "s1-eth1").1 []
        ⟨some "h1", some "l0", none, []⟩).2.2
       = [["ifconfig", "pair0", "destroy"]]) :=
  C6_rename_keeps_real ⟨"h1-eth0", some "pair0"⟩ [] [] ⟨some "h1", some "l0", none, []⟩
    "s1-eth1" "pair0" rfl (by decide) (by decide)

/-- Structured tc command, mirroring the command strings built by
TCIntf.bwCmds, TCIntf.delayCmds and TCIntf.config (link.py); constructor
fields carry exactly the format arguments of the source strings. -/
inductive TCCmd where
  | qdiscShow
  | qdiscDelRoot
  | hfscQdisc
  | hfscClass (rate ul : ℚ)
  | tbfQdisc (rate latency : ℚ)
  | htbQdisc
  | htbClass (rate : ℚ)
  | redQdisc (parent : String) (bandwidth : ℚ) (ecn : Bool)
  | netem (parent : String) (delay jitter loss : Option ℚ) (limit : Option Int)
deriving DecidableEq

/-- Commands that install a bandwidth strategy (hfsc, tbf or htb root
qdisc/class pairs). -/
def TCCmd.isBw : TCCmd → Bool
  | TCCmd.hfscQdisc => true
  | TCCmd.hfscClass _ _ => true
  | TCCmd.tbfQdisc _ _ => true
  | TCCmd.htbQdisc => true
  | TCCmd.htbClass _ => true
  | _ => false

/-- Test of the source expression name[0:1] == s on the node name. -/
def headIsS (nodeName : String) : Bool :=
  match nodeName.data with
  | [] => false
  | c :: _ => decide (c = 's')

namespace TCIntf

/-- bwParamMax (link.py): upper bound of the supported bandwidth range. -/
def bwParamMax : ℚ := 1000

/-- Embedding of TCIntf.bwCmds (link.py).  Returns the validation errors
reported, the tc commands produced, and the resulting parent handle.
Mirrors the source: a truthy bandwidth outside (0, bwParamMax] is reported
and ignored; any non-None bandwidth otherwise produces the strategy
commands (hfsc, tbf with derived latency 15*8/bw when none is given, or
htb by default), with the speedup override applied only for a positive
speedup on a node whose name starts with s; ECN or RED chains a red qdisc
beneath the strategy. -/
def bwCmds (nodeName : String) (bw : Option ℚ) (speedup : ℚ)
    (use_hfsc use_tbf : Bool) (latency_ms : Option ℚ)
    (enable_ecn enable_red : Bool) : List String × List TCCmd × String :=
  match bw with
  | none => ([], [], " root ")
  | some b0 =>
    if b0 ≠ 0 ∧ (b0 < 0 ∨ bwParamMax < b0) then
      (["Bandwidth limit " ++ toString b0 ++
        " is outside supported range 0..1000 - ignoring"], [], " root ")
    else
      let b := if 0 < speedup ∧ headIsS nodeName = true then speedup else b0
      let cmds :=
        if use_hfsc then [TCCmd.hfscQdisc, TCCmd.hfscClass b b]
        else if use_tbf then
          let lat := match latency_ms with
            | none => 15 * 8 / b
            | some l => l
          [TCCmd.tbfQdisc b lat]
        else [TCCmd.htbQdisc, TCCmd.htbClass b]
      if enable_ecn then
        ([], cmds ++ [TCCmd.redQdisc " parent 5:1 " b true], " parent 6: ")
      else if enable_red then
        ([], cmds ++ [TCCmd.redQdisc " parent 5:1 " b false], " parent 6: ")
      else
        ([], cmds, " parent 5:1 ")

/-- Embedding of TCIntf.delayCmds (link.py): negative truthy delay or
jitter, or truthy loss outside [0, 100], is reported with no command;
otherwise a single netem command carrying the present options is chained
and the parent handle advances, and no command is produced when all four
options are None. -/
def delayCmds (parent : String) (delay jitter loss : Option ℚ)
    (max_queue_size : Option Int) : List String × List TCCmd × String :=
  if truthyQ delay = true ∧ delay.getD 0 < 0 then
    (["Negative delay"], [], parent)
  else if truthyQ jitter = true ∧ jitter.getD 0 < 0 then
    (["Negative jitter"], [], parent)
  else if truthyQ loss = true ∧ (loss.getD 0 < 0 ∨ 100 < loss.getD 0) then
    (["Bad loss percentage"], [], parent)
  else if delay = none ∧ jitter = none ∧ loss = none ∧ max_queue_size = none then
    ([], [], parent)
  else
    ([], [TCCmd.netem parent delay jitter loss max_queue_size], " parent 10:1 ")

/-- Result of TCIntf.config: final state, result mapping and commands of
the base configuration, the gro-disabling command(s), the validation
errors reported by the shaping stages, the tc commands issued, and the
returned value (None on the early return, otherwise the tc outputs and
the final parent handle; the base result mapping is part of the returned
dictionary only in the non-early case). -/
structure TCOut where
  state : IntfState
  baseResults : List (String × String)
  baseCmds : List (List String)
  groCmds : List (List String)
  verrors : List String
  tccmds : List TCCmd
  ret : Option (List String × String)
deriving DecidableEq

/-- Embedding of TCIntf.config (link.py): base configuration first, then
the gro toggle, then the early return when there is nothing to shape
(bw None, delay and loss falsy, queue None); otherwise clear any existing
non-default discipline, emit the bandwidth commands and the chained
delay/loss commands, run them, and return the result dictionary. -/
def config (run : List String → String) (runTC : TCCmd → String)
    (s : IntfState) (nodeName : String)
    (mac ip : Option String) (up : Option Bool) (ifcfg : Option String)
    (bw delay jitter loss : Option ℚ) (disable_gro : Bool) (speedup : ℚ)
    (use_hfsc use_tbf : Bool) (latency_ms : Option ℚ)
    (enable_ecn enable_red : Bool) (max_queue_size : Option Int) :
    Except String TCOut :=
  match Intf.config run s mac ip up ifcfg with
  | Except.error e => Except.error e
  | Except.ok base =>
    let groCmds := if disable_gro then [["ethtool", "-K", s.name, "gro", "off"]] else []
    if bw = none ∧ truthyQ delay = false ∧ truthyQ loss = false ∧ max_queue_size = none then
      Except.ok ⟨base.state, base.results, base.cmds, groCmds, [], [], none⟩
    else
      let tcoutput := runTC TCCmd.qdiscShow
      let cmds0 := if strContains tcoutput "priomap" = false ∧
                      strContains tcoutput "noqueue" = false
                   then [TCCmd.qdiscDelRoot] else []
      let bres := bwCmds nodeName bw speedup use_hfsc use_tbf latency_ms
                    enable_ecn enable_red
      let dres := delayCmds bres.2.2 delay jitter loss max_queue_size
      let cmds := cmds0 ++ bres.2.1 ++ dres.2.1
      let touts := cmds.map runTC
      Except.ok ⟨base.state, base.results, base.cmds, groCmds,
                 bres.1 ++ dres.1, cmds, some (touts, dres.2.2)⟩

end TCIntf

/-- Shape of TCIntf.config in the non-early case, in terms of bwCmds and
delayCmds. -/
theorem TCIntf.config_shape (run : List String → String) (runTC : TCCmd → String)
    (s : IntfState) (nodeName : String)
    (mac ip : Option String) (up : Option Bool) (ifcfg : Option String)
    (bw delay jitter loss : Option ℚ) (disable_gro : Bool) (speedup : ℚ)
    (use_hfsc use_tbf : Bool) (latency_ms : Option ℚ)
    (enable_ecn enable_red : Bool) (max_queue_size : Option Int)
    (base : Intf.BaseOut)
    (hb : Intf.config run s mac ip up ifcfg = Except.ok base)
    (hne : ¬(bw = none ∧ truthyQ delay = false ∧ truthyQ loss = false ∧
             max_queue_size = none)) :
    TCIntf.config run runTC s nodeName mac ip up ifcfg bw delay jitter loss
        disable_gro speedup use_hfsc use_tbf latency_ms enable_ecn enable_red
        max_queue_size
      = Except.ok ⟨base.state, base.results, base.cmds,
          (if disable_gro then [["ethtool", "-K", s.name, "gro", "off"]] else []),
          (TCIntf.bwCmds nodeName bw speedup use_hfsc use_tbf latency_ms
             enable_ecn enable_red).1 ++
          (TCIntf.delayCmds (TCIntf.bwCmds nodeName bw speedup use_hfsc use_tbf
             latency_ms enable_ecn enable_red).2.2 delay jitter loss
             max_queue_size).1,
          (if strContains (runTC TCCmd.qdiscShow) "priomap" = false ∧
              strContains (runTC TCCmd.qdiscShow) "noqueue" = false
           then [TCCmd.qdiscDelRoot] else []) ++
          (TCIntf.bwCmds nodeName bw speedup use_hfsc use_tbf latency_ms
             enable_ecn enable_red).2.1 ++
          (TCIntf.delayCmds (TCIntf.bwCmds nodeName bw speedup use_hfsc use_tbf
             latency_ms enable_ecn enable_red).2.2 delay jitter loss
             max_queue_size).2.1,
          some ((((if strContains (runTC TCCmd.qdiscShow) "priomap" = false ∧
                      strContains (runTC TCCmd.qdiscShow) "noqueue" = false
                   then [TCCmd.qdiscDelRoot] else []) ++
                  (TCIntf.bwCmds nodeName bw speedup use_hfsc use_tbf latency_ms
                     enable_ecn enable_red).2.1 ++
                  (TCIntf.delayCmds (TCIntf.bwCmds nodeName bw speedup use_hfsc
                     use_tbf latency_ms enable_ecn enable_red).2.2 delay jitter
                     loss max_queue_size).2.1).map runTC),
                (TCIntf.delayCmds (TCIntf.bwCmds nodeName bw speedup use_hfsc
                   use_tbf latency_ms enable_ecn enable_red).2.2 delay jitter
                   loss max_queue_size).2.2)⟩ := by
  unfold TCIntf.config
  rw [hb]
  dsimp only
  rw [if_neg hne]

/-- bwCmds at default strategy flags with an in-range bandwidth (0 ≤ b ≤
1000) reports nothing and emits the htb root pair. -/
theorem TCIntf.bwCmds_in_range (nodeName : String) (b : ℚ)
    (h1 : 0 ≤ b) (h2 : b ≤ 1000) :
    TCIntf.bwCmds nodeName (some b) 0 false false none false false
      = ([], [TCCmd.htbQdisc, TCCmd.htbClass b], " parent 5:1 ") := by
  have hcond : ¬(b ≠ 0 ∧ (b < 0 ∨ TCIntf.bwParamMax < b)) := by
    rintro ⟨hz, hr | hr⟩
    · linarith
    · rw [TCIntf.bwParamMax] at hr
      linarith
  have hsp : ¬((0:ℚ) < 0 ∧ headIsS nodeName = true) := by
    rintro ⟨hx, _⟩
    exact absurd hx (lt_irrefl 0)
  unfold TCIntf.bwCmds
  dsimp only
  rw [if_neg hcond]
  rw [if_neg hsp]
  simp

/-- bwCmds at default strategy flags with an out-of-range bandwidth
(b < 0 or b > 1000) reports exactly one error and emits no command. -/
theorem TCIntf.bwCmds_out_range (nodeName : String) (b : ℚ)
    (hr : b < 0 ∨ 1000 < b) :
    TCIntf.bwCmds nodeName (some b) 0 false false none false false
      = (["Bandwidth limit " ++ toString b ++
          " is outside supported range 0..1000 - ignoring"], [], " root ") := by
  have hcond : b ≠ 0 ∧ (b < 0 ∨ TCIntf.bwParamMax < b) := by
    rw [TCIntf.bwParamMax]
    rcases hr with hr | hr
    · exact ⟨by linarith, Or.inl hr⟩
    · exact ⟨by linarith, Or.inr hr⟩
  unfold TCIntf.bwCmds
  dsimp only
  rw [if_pos hcond]

/-- delayCmds with no options set produces nothing. -/
theorem TCIntf.delayCmds_none (parent : String) :
    TCIntf.delayCmds parent none none none none = ([], [], parent) := by
  simp [TCIntf.delayCmds, truthyQ]

/-- Claim C9: with the simple rate-limiting strategy (use_tbf) selected, a
valid bandwidth b and no explicit latency, the latency used in the
generated rate-limit command is 15 * 8 / b milliseconds. -/
theorem C9_tbf_latency (nodeName : String) (b : ℚ) (h1 : 0 < b) (h2 : b ≤ 1000) :
    TCIntf.bwCmds nodeName (some b) 0 false true none false false
      = ([], [TCCmd.tbfQdisc b (15 * 8 / b)], " parent 5:1 ") := by
  have hcond : ¬(b ≠ 0 ∧ (b < 0 ∨ TCIntf.bwParamMax < b)) := by
    rintro ⟨hz, hr | hr⟩
    · linarith
    · rw [TCIntf.bwParamMax] at hr
      linarith
  have hsp : ¬((0:ℚ) < 0 ∧ headIsS nodeName = true) := by
    rintro ⟨hx, _⟩
    exact absurd hx (lt_irrefl 0)
  unfold TCIntf.bwCmds
  dsimp only
  rw [if_neg hcond]
  rw [if_neg hsp]
  simp

/-- Witness for C9 at bandwidth 10: the derived latency is 12 ms. -/
theorem C9_witness :
    TCIntf.bwCmds "h1" (some 10) 0 false true none false false
      = ([], [TCCmd.tbfQdisc 10 12], " parent 5:1 ") := by
  have h := C9_tbf_latency "h1" 10 (by norm_num) (by norm_num)
  rw [show (15 * 8 / 10 : ℚ) = 12 by norm_num] at h
  exact h

/-- Counterexample to claim C1 as stated: at bandwidth 0 (outside the
claimed valid range (0, 1000]) the configuration still issues the root htb
bandwidth commands parameterized by 0 and reports no validation error,
because the range check is guarded by Python truthiness and 0 is falsy. -/
theorem C1_counterexample :
    TCIntf.config (fun _ => "") (fun _ => "") ⟨"h1-eth0", none, none, none⟩ "h1"
        none none (some true) none (some 0) none none none true 0 false false
        none false false none
      = Except.ok ⟨⟨"h1-eth0", none, none, none⟩, [("up", "True")],
          [["ifconfig", "h1-eth0", "up"]],
          [["ethtool", "-K", "h1-eth0", "gro", "off"]],
          [], [TCCmd.qdiscDelRoot, TCCmd.htbQdisc, TCCmd.htbClass 0],
          some (["", "", ""], " parent 5:1 ")⟩ := by
  rfl

/-- Claim C1, corrected form: with the default strategy, TCIntf.config with
bw = b issues the root htb bandwidth commands parameterized by b and
reports no validation error for every b with 0 ≤ b ≤ 1000 (bandwidth 0
included, since the falsy value 0 skips the range check); for b < 0 or
b > 1000 it issues no bandwidth command and reports exactly one validation
error. -/
theorem C1_amended (run : List String → String) (runTC : TCCmd → String)
    (s : IntfState) (nodeName : String) (mac ip : Option String) (up : Option Bool)
    (ifcfg : Option String) (b : ℚ) (out : TCIntf.TCOut)
    (h : TCIntf.config run runTC s nodeName mac ip up ifcfg (some b) none none none
          true 0 false false none false false none = Except.ok out) :
    ((0 ≤ b ∧ b ≤ 1000) →
      out.verrors = [] ∧ TCCmd.htbQdisc ∈ out.tccmds ∧ TCCmd.htbClass b ∈ out.tccmds) ∧
    ((b < 0 ∨ 1000 < b) →
      out.verrors.length = 1 ∧ ∀ c ∈ out.tccmds, TCCmd.isBw c = false) := by
  cases hb : Intf.config run s mac ip up ifcfg with
  | error e =>
    unfold TCIntf.config at h
    rw [hb] at h
    simp at h
  | ok base =>
    have hsh := TCIntf.config_shape run runTC s nodeName mac ip up ifcfg (some b)
      none none none true 0 false false none false false none base hb (by simp)
    rw [hsh] at h
    injection h with h
    subst h
    constructor
    · rintro ⟨h1, h2⟩
      dsimp only
      rw [TCIntf.bwCmds_in_range nodeName b h1 h2]
      rw [TCIntf.delayCmds_none]
      refine ⟨rfl, ?_, ?_⟩ <;> simp
    · intro hr
      dsimp only
      rw [TCIntf.bwCmds_out_range nodeName b hr]
      rw [TCIntf.delayCmds_none]
      refine ⟨rfl, ?_⟩
      intro c hc
      simp only [List.append_nil] at hc
      split at hc
      · simp only [List.mem_singleton] at hc
        subst hc
        rfl
      · simp at hc

/-- Witness for C1_amended at bandwidth 10 with the trivial runner. -/
theorem C1_witness :
    ((0 ≤ (10:ℚ) ∧ (10:ℚ) ≤ 1000) →
      (⟨⟨"h1-eth0", none, none, none⟩, [("up", "True")],
          [["ifconfig", "h1-eth0", "up"]],
          [["ethtool", "-K", "h1-eth0", "gro", "off"]],
          [], [TCCmd.qdiscDelRoot, TCCmd.htbQdisc, TCCmd.htbClass 10],
          some (["", "", ""], " parent 5:1 ")⟩ : TCIntf.TCOut).verrors = [] ∧
      TCCmd.htbQdisc ∈ (⟨⟨"h1-eth0", none, none, none⟩, [("up", "True")],
          [["ifconfig", "h1-eth0", "up"]],
          [["ethtool", "-K", "h1-eth0", "gro", "off"]],
          [], [TCCmd.qdiscDelRoot, TCCmd.htbQdisc, TCCmd.htbClass 10],
          some (["", "", ""], " parent 5:1 ")⟩ : TCIntf.TCOut).tccmds ∧
      TCCmd.htbClass 10 ∈ (⟨⟨"h1-eth0", none, none, none⟩, [("up", "True")],
          [["ifconfig", "h1-eth0", "up"]],
          [["ethtool", "-K", "h1-eth0", "gro", "off"]],
          [], [TCCmd.qdiscDelRoot, TCCmd.htbQdisc, TCCmd.htbClass 10],
          some (["", "", ""], " parent 5:1 ")⟩ : TCIntf.TCOut).tccmds) ∧
    (((10:ℚ) < 0 ∨ (1000:ℚ) < 10) →
      (⟨⟨"h1-eth0", none, none, none⟩, [("up", "True")],
          [["ifconfig", "h1-eth0", "up"]],
          [["ethtool", "-K", "h1-eth0", "gro", "off"]],
          [], [TCCmd.qdiscDelRoot, TCCmd.htbQdisc, TCCmd.htbClass 10],
          some (["", "", ""], " parent 5:1 ")⟩ : TCIntf.TCOut).verrors.length = 1 ∧
      ∀ c ∈ (⟨⟨"h1-eth0", none, none, none⟩, [("up", "True")],
          [["ifconfig", "h1-eth0", "up"]],
          [["ethtool", "-K", "h1-eth0", "gro", "off"]],
          [], [TCCmd.qdiscDelRoot, TCCmd.htbQdisc, TCCmd.htbClass 10],
          some (["", "", ""], " parent 5:1 ")⟩ : TCIntf.TCOut).tccmds,
        TCCmd.isBw c = false) :=
  C1_amended (fun _ => "") (fun _ => "") ⟨"h1-eth0", none, none, none⟩ "h1"
    none none (some true) none 10
    (⟨⟨"h1-eth0", none, none, none⟩, [("up", "True")],
        [["ifconfig", "h1-eth0", "up"]],
        [["ethtool", "-K", "h1-eth0", "gro", "off"]],
        [], [TCCmd.qdiscDelRoot, TCCmd.htbQdisc, TCCmd.htbClass 10],
        some (["", "", ""], " parent 5:1 ")⟩ : TCIntf.TCOut)
    (by rfl)

/-- Bandwidth fragment of an ipfw pipe configuration (b_arg of
IFIntf.bwCmds): the bandwidth value as formatted by the integer conversion
of the source, and the unit string. -/
structure BArg where
  bw : Int
  units : String
deriving DecidableEq

/-- Queue-management fragment of an ipfw pipe configuration (q_arg of
IFIntf.bwCmds): algorithm, weight, min threshold, max threshold (3 times
the min), the fixed marking probability, and the ecn flag. -/
structure QArg where
  alg : String
  w_q : ℚ
  min_th : Int
  max_th : Int
  max_p : ℚ
  ecn : Bool
deriving DecidableEq

/-- A dummynet pipe-configuration payload: the bandwidth/queue fragment
pair produced by IFIntf.bwCmds, or the delay/queue fragment pair produced
by IFIntf.delayCmds. -/
inductive PipeArg where
  | bwA (b_arg : Option BArg) (q_arg : Option QArg)
  | dlA (d_arg : Option ℚ) (q_arg : Option (Int × Bool))
deriving DecidableEq

/-- Structured ipfw command issued by IFIntf, mirroring the command strings
of mk_pipe, mk_config and prob (link.py). -/
inductive IpfwCmd where
  | addPipe (n : Nat) (direction : String) (dev : String)
  | pipeConfig (n : Nat) (arg : PipeArg)
  | addProb (p : ℚ) (direction : String) (dev : String)
deriving DecidableEq

namespace IFIntf

/-- Embedding of IFIntf.bwCmds (link.py): a truthy negative bandwidth is
reported; a truthy non-negative bandwidth yields the bw fragment; RED or
GRED with valid weight and threshold yields the queue fragment (with ecn
appended when requested), invalid parameters are reported; ECN without a
queue discipline is reported.  Exactly one payload is returned. -/
def bwCmds (bw : Option ℚ) (bw_units : Option String)
    (enable_ecn enable_red enable_gred : Bool) (w_q : ℚ) (min_th : Int) :
    List String × List PipeArg :=
  let e0 : List String := []
  let r1 :=
    match bw with
    | none => (e0, (none : Option BArg))
    | some b =>
      if b ≠ 0 ∧ b < 0 then
        (e0 ++ ["Bandwidth must be a positive value - ignoring"], none)
      else if b ≠ 0 then (e0, some ⟨b.floor, bw_units.getD "M"⟩)
      else (e0, none)
  let qm_alg : Option String :=
    if enable_red then some "red" else if enable_gred then some "gred" else none
  let r2 :=
    match qm_alg with
    | some alg =>
      if (0 ≤ w_q ∧ w_q ≤ 1) ∧ 0 ≤ min_th then
        (r1.1, some (⟨alg, w_q, min_th, 3 * min_th, 1, enable_ecn⟩ : QArg))
      else (r1.1 ++ ["Invalid configuration parameters for " ++ alg], none)
    | none =>
      if enable_ecn then
        (r1.1 ++ ["Cannot enable ECN without queuing discipline - ignoring"], none)
      else (r1.1, none)
  (r2.1, [PipeArg.bwA r1.2 r2.2])

/-- Embedding of IFIntf.delayCmds (link.py): truthy loss is rescaled from
percent when in (1, 100], reported when negative, and otherwise becomes
the probabilistic drop rule value; a truthy negative delay is reported,
otherwise a positive delay becomes the delay fragment; a truthy negative
queue size is reported, otherwise a truthy queue size becomes the queue
fragment.  Returns the drop value, the errors, and one payload. -/
def delayCmds (delay jitter loss : Option ℚ) (max_queue_size : Option Int)
    (q_as_slots : Bool) : Option ℚ × List String × List PipeArg :=
  let r1 :=
    match loss with
    | none => (([] : List String), (none : Option ℚ))
    | some l =>
      if l = 0 then ([], none)
      else
        let l2 := if 1 < l ∧ l ≤ 100 then l / 100 else l
        if l2 < 0 then
          (["Packet loss rate must be a value between 0 and 100 (inclusive) - ignoring"],
           none)
        else ([], some l2)
  let r2 :=
    if truthyQ delay = true ∧ delay.getD 0 < 0 then
      (r1.1 ++ ["Cannot set negative delay - ignoring"], (none : Option ℚ))
    else (r1.1, if 0 < delay.getD 0 then delay else none)
  let r3 :=
    match max_queue_size with
    | none => (r2.1, (none : Option (Int × Bool)))
    | some q =>
      if q ≠ 0 ∧ q < 0 then
        (r2.1 ++ ["Cannot set negative queue size - ignoring"], none)
      else if q ≠ 0 then (r2.1, some (q, q_as_slots))
      else (r2.1, none)
  (r1.2, r3.1, [PipeArg.dlA r2.2 r3.2])

/-- Result of one IFIntf.ipfw application: output text, the four commands
issued, the two allocated pipe numbers, and the updated class counter. -/
structure IpfwOut where
  res : String
  cmds : List IpfwCmd
  n_in : Nat
  n_out : Nat
  pipeNo : Nat
deriving DecidableEq

/-- Embedding of IFIntf.mk_pipe (link.py): allocate the current class-wide
pipe number for a filter rule in the given direction and increment the
counter. -/
def mk_pipe (dev direction : String) (pipeNo : Nat) : (IpfwCmd × Nat) × Nat :=
  ((IpfwCmd.addPipe pipeNo direction dev, pipeNo), pipeNo + 1)

/-- Embedding of IFIntf.mk_config (link.py): pipe-configuration command for
an allocated pipe number. -/
def mk_config (pipeno : Nat) (arg : PipeArg) : IpfwCmd :=
  IpfwCmd.pipeConfig pipeno arg

/-- Embedding of IFIntf.ipfw (link.py): set up an inbound and an outbound
pipe with fresh numbers from the class counter, then configure both pipes
with the same payload. -/
def ipfw (runI : IpfwCmd → String) (dev : String) (arg : PipeArg) (pipeNo : Nat) :
    IpfwOut :=
  let pin := mk_pipe dev "in" pipeNo
  let pout := mk_pipe dev "out" pin.2
  let icfg := mk_config pin.1.2 arg
  let ocfg := mk_config pout.1.2 arg
  ⟨runI pin.1.1 ++ runI pout.1.1 ++ runI icfg ++ runI ocfg,
   [pin.1.1, pout.1.1, icfg, ocfg], pin.1.2, pout.1.2, pout.2⟩

/-- Sequential application of ipfw over the payload list of one configure
call, threading the class-wide pipe counter. -/
def runPipes (runI : IpfwCmd → String) (dev : String) :
    List PipeArg → Nat → List (Option String) × List IpfwCmd × Nat
  | [], p => ([], [], p)
  | a :: rest, p =>
    let o := ipfw runI dev a p
    let r := runPipes runI dev rest o.pipeNo
    (some o.res :: r.1, o.cmds ++ r.2.1, r.2.2)

/-- Result of IFIntf.config: final state, base result mapping and base
commands, validation errors of the shaping stages, the ipfw commands
issued, the final pipe counter, and the returned value (None on the early
return, otherwise the per-command outputs where the prob helper
contributes None). -/
structure IFOut where
  state : IntfState
  baseResults : List (String × String)
  baseCmds : List (List String)
  verrors : List String
  ipfwCmds : List IpfwCmd
  pipeNo : Nat
  ret : Option (List (Option String))
deriving DecidableEq

/-- Embedding of IFIntf.config (link.py): base configuration first, then
the early return when there is nothing to shape; otherwise the bandwidth
payload, the delay value resolution (latency_ms when delay is falsy, else
delay), the delay/loss payload, the drop rules (via prob, which returns
None), and the ipfw applications threading the pipe counter. -/
def config (run : List String → String) (runI : IpfwCmd → String)
    (s : IntfState)
    (mac ip : Option String) (up : Option Bool) (ifcfg : Option String)
    (bw delay jitter loss : Option ℚ) (latency_ms : Option ℚ)
    (enable_ecn enable_red enable_gred : Bool) (max_queue_size : Option Int)
    (w_q : ℚ) (min_th : Int) (q_as_slots : Bool) (pipeNo : Nat) :
    Except String IFOut :=
  match Intf.config run s mac ip up ifcfg with
  | Except.error e => Except.error e
  | Except.ok base =>
    if bw = none ∧ truthyQ delay = false ∧ truthyQ loss = false ∧
       max_queue_size = none then
      Except.ok ⟨base.state, base.results, base.cmds, [], [], pipeNo, none⟩
    else
      let bres := bwCmds bw none enable_ecn enable_red enable_gred w_q min_th
      let d_val : Option ℚ :=
        if truthyQ latency_ms = true ∧ truthyQ delay = false then latency_ms
        else if truthyQ delay = true then delay
        else none
      let dres := delayCmds d_val jitter loss max_queue_size q_as_slots
      let cmds := bres.2 ++ dres.2.2
      let probPart :=
        match dres.1 with
        | some l => ([(none : Option String)],
                     [IpfwCmd.addProb l "out" s.name, IpfwCmd.addProb l "in" s.name])
        | none => (([] : List (Option String)), ([] : List IpfwCmd))
      let pres := runPipes runI s.name cmds pipeNo
      Except.ok ⟨base.state, base.results, base.cmds,
                 bres.1 ++ dres.2.1,
                 probPart.2 ++ pres.2.1, pres.2.2,
                 some (probPart.1 ++ pres.1)⟩

end IFIntf

/-- The pipe counter never decreases across a sequence of ipfw
applications. -/
theorem runPipes_le (runI : IpfwCmd → String) (dev : String) (args : List PipeArg) :
    ∀ p, p ≤ (IFIntf.runPipes runI dev args p).2.2 := by
  induction args with
  | nil =>
    intro p
    simp [IFIntf.runPipes]
  | cons a rest ih =>
    intro p
    have h2 : (IFIntf.ipfw runI dev a p).pipeNo = p + 1 + 1 := rfl
    simp only [IFIntf.runPipes]
    rw [h2]
    exact le_trans (by omega) (ih (p + 1 + 1))

/-- Claim C8: every ipfw application allocates exactly two fresh distinct
pipe numbers (inbound first, outbound second) from the class-wide counter,
advancing the counter past both, and the counter is monotone (never reset)
across any sequence of applications. -/
theorem C8_pipe_allocation (runI : IpfwCmd → String) (dev : String) (arg : PipeArg)
    (p : Nat) :
    (IFIntf.ipfw runI dev arg p).n_in = p ∧
    (IFIntf.ipfw runI dev arg p).n_out = p + 1 ∧
    (IFIntf.ipfw runI dev arg p).n_in ≠ (IFIntf.ipfw runI dev arg p).n_out ∧
    (IFIntf.ipfw runI dev arg p).pipeNo = p + 2 ∧
    p < (IFIntf.ipfw runI dev arg p).pipeNo ∧
    (∀ args q, q ≤ (IFIntf.runPipes runI dev args q).2.2) := by
  have h1 : (IFIntf.ipfw runI dev arg p).n_in = p := rfl
  have h2 : (IFIntf.ipfw runI dev arg p).n_out = p + 1 := rfl
  have h3 : (IFIntf.ipfw runI dev arg p).pipeNo = p + 2 := rfl
  refine ⟨h1, h2, ?_, h3, ?_, ?_⟩
  · rw [h1, h2]
    omega
  · rw [h3]
    omega
  · intro args q
    exact runPipes_le runI dev args q

/-- Counterexample to claim C7 as stated: the configure call with only
enable_ecn set reports no error at all (not exactly one) and issues no
discipline command, because the nothing-to-shape early return fires before
the ECN check is reached. -/
theorem C7_counterexample :
    IFIntf.config (fun _ => "") (fun _ => "") ⟨"h1-eth0", none, none, none⟩
        none none (some true) none none none none none none true false false
        none (1/200) 30 true 1
      = Except.ok ⟨⟨"h1-eth0", none, none, none⟩, [("up", "True")],
          [["ifconfig", "h1-eth0", "up"]], [], [], 1, none⟩ := by
  rfl

/-- Claim C7, corrected form: configure with enable_ecn and no bandwidth,
RED, GRED, delay, loss or queue size reports no error and issues no
discipline command: the early return precedes the ECN-without-discipline
check, which is only reached when some other shaping parameter is present. -/
theorem C7_amended (run : List String → String) (runI : IpfwCmd → String)
    (s : IntfState) (mac ip : Option String) (up : Option Bool) (ifcfg : Option String)
    (latency_ms : Option ℚ) (w_q : ℚ) (min_th : Int) (qs : Bool) (p : Nat)
    (out : IFIntf.IFOut)
    (h : IFIntf.config run runI s mac ip up ifcfg none none none none latency_ms
          true false false none w_q min_th qs p = Except.ok out) :
    out.verrors = [] ∧ out.ipfwCmds = [] ∧ out.ret = none ∧ out.pipeNo = p := by
  cases hb : Intf.config run s mac ip up ifcfg with
  | error e =>
    unfold IFIntf.config at h
    rw [hb] at h
    simp at h
  | ok base =>
    unfold IFIntf.config at h
    rw [hb] at h
    dsimp only at h
    rw [if_pos ⟨rfl, rfl, rfl, rfl⟩] at h
    injection h with h
    subst h
    exact ⟨rfl, rfl, rfl, rfl⟩

/-- Witness for C7_amended with the trivial runner. -/
theorem C7_witness :
    (⟨⟨"h1-eth0", none, none, none⟩, [("up", "True")],
        [["ifconfig", "h1-eth0", "up"]], [], [], 5, none⟩ : IFIntf.IFOut).verrors = [] ∧
    (⟨⟨"h1-eth0", none, none, none⟩, [("up", "True")],
        [["ifconfig", "h1-eth0", "up"]], [], [], 5, none⟩ : IFIntf.IFOut).ipfwCmds = [] ∧
    (⟨⟨"h1-eth0", none, none, none⟩, [("up", "True")],
        [["ifconfig", "h1-eth0", "up"]], [], [], 5, none⟩ : IFIntf.IFOut).ret = none ∧
    (⟨⟨"h1-eth0", none, none, none⟩, [("up", "True")],
        [["ifconfig", "h1-eth0", "up"]], [], [], 5, none⟩ : IFIntf.IFOut).pipeNo = 5 :=
  C7_amended (fun _ => "") (fun _ => "") ⟨"h1-eth0", none, none, none⟩
    none none (some true) none none (1/200) 30 true 5
    (⟨⟨"h1-eth0", none, none, none⟩, [("up", "True")],
        [["ifconfig", "h1-eth0", "up"]], [], [], 5, none⟩ : IFIntf.IFOut)
    (by rfl)

/-- Claim C10: with bw None, delay and loss falsy, and queue size None,
both shaped configure variants return None (no result mapping), while the
base configuration results and commands were produced (and are discarded
by the early return). -/
theorem C10_early_return_discards (run : List String → String) (runTC : TCCmd → String)
    (runI : IpfwCmd → String) (s : IntfState) (nodeName : String)
    (mac ip : Option String) (up : Option Bool) (ifcfg : Option String)
    (delay jitter loss : Option ℚ) (disable_gro : Bool) (speedup : ℚ)
    (use_hfsc use_tbf : Bool) (latency_ms : Option ℚ)
    (enable_ecn enable_red enable_gred : Bool)
    (w_q : ℚ) (min_th : Int) (qs : Bool) (p : Nat) (base : Intf.BaseOut)
    (hb : Intf.config run s mac ip up ifcfg = Except.ok base)
    (hd : truthyQ delay = false) (hl : truthyQ loss = false) :
    TCIntf.config run runTC s nodeName mac ip up ifcfg none delay jitter loss
        disable_gro speedup use_hfsc use_tbf latency_ms enable_ecn enable_red none
      = Except.ok ⟨base.state, base.results, base.cmds,
          (if disable_gro then [["ethtool", "-K", s.name, "gro", "off"]] else []),
          [], [], none⟩ ∧
    IFIntf.config run runI s mac ip up ifcfg none delay jitter loss latency_ms
        enable_ecn enable_red enable_gred none w_q min_th qs p
      = Except.ok ⟨base.state, base.results, base.cmds, [], [], p, none⟩ := by
  constructor
  · unfold TCIntf.config
    rw [hb]
    dsimp only
    rw [if_pos ⟨rfl, hd, hl, rfl⟩]
  · unfold IFIntf.config
    rw [hb]
    dsimp only
    rw [if_pos ⟨rfl, hd, hl, rfl⟩]

/-- Witness for C10 with the trivial runner and default base options. -/
theorem C10_witness :
    TCIntf.config (fun _ => "") (fun _ => "") ⟨"h1-eth0", none, none, none⟩ "h1"
        none none (some true) none none none none none true 0 false false none
        false false none
      = Except.ok ⟨⟨"h1-eth0", none, none, none⟩, [("up", "True")],
          [["ifconfig", "h1-eth0", "up"]],
          [["ethtool", "-K", "h1-eth0", "gro", "off"]], [], [], none⟩ ∧
    IFIntf.config (fun _ => "") (fun _ => "") ⟨"h1-eth0", none, none, none⟩
        none none (some true) none none none none none none false false false
        none (1/200) 30 true 7
      = Except.ok ⟨⟨"h1-eth0", none, none, none⟩, [("up", "True")],
          [["ifconfig", "h1-eth0", "up"]], [], [], 7, none⟩ :=
  C10_early_return_discards (fun _ => "") (fun _ => "") (fun _ => "")
    ⟨"h1-eth0", none, none, none⟩ "h1" none none (some true) none
    none none none true 0 false false none false false false (1/200) 30 true 7
    ⟨⟨"h1-eth0", none, none, none⟩, [("up", "True")],
      [["ifconfig", "h1-eth0", "up"]]⟩
    (by rfl) rfl rfl
